import Mathlib

/-!
# Shallow embedding of the LMS progress/credit engine

This file embeds, in Lean, the parts of the learning-management
application that the verified properties below are about:

* `toggle_lesson_progress` (courses/views.py) — per-item progress toggle,
  lesson-completion rollup and idempotent credit award/revoke, modelled as a
  pure function on the (student, lesson) slice of the database that the view
  reads and writes: the `LessonItemProgress` rows, the `LessonProgress` row
  and the `CreditTransaction` row for that pair;
* `course_enroll` (courses/views.py) — the 4-course enrollment cap;
* `Course.save` (courses/models.py) — enrollment cascade for inactive courses;
* `User.save` / `User._generate_student_id` (accounts/models.py) — role
  derivation and lazy student-id generation;
* the overall progress-percent computation of `instructor_report_list`
  (reports/views.py) and `student_overall_report` (accounts/views.py).

Database tables are embedded as lists of rows; machine reals appearing in the
percent computations are embedded as rationals; Python `int(...)` parsing of a
request parameter is embedded explicitly (`pyInt?`).
-/

namespace LMS

/-- The three user roles of `accounts.models.User.Roles`. -/
inductive Role where
  | admin
  | instructor
  | student
deriving DecidableEq, Repr

/-- The two item sections of `courses.models.LessonItemProgress`
(`SECTION_READING = "reading"`, `SECTION_ASSIGNMENT = "assignment"`). -/
inductive ItemSection where
  | reading
  | assignment
deriving DecidableEq, Repr

/-- The fields of `courses.models.Lesson` read by `toggle_lesson_progress`:
the two free-text item sections and the lesson's credit value. -/
structure LessonData where
  reading_list : String
  assignments : String
  credit_points : Nat
deriving DecidableEq, Repr

/-- One `LessonItemProgress` row for the fixed (student, lesson) pair:
`(section, item_index, completed)`.  The index is an `Int` because the view
stores whatever Python `int(...)` returns. -/
abbrev ItemRow := ItemSection × Int × Bool

/-- The (student, lesson) slice of the store that `toggle_lesson_progress`
reads and writes: the `LessonItemProgress` rows, the `completed` field of the
`LessonProgress` row (`none` = no row), and the `credits` field of the
`CreditTransaction` row (`none` = no row). -/
structure ProgressSt where
  items : List ItemRow
  lp : Option Bool
  txn : Option Nat
deriving DecidableEq, Repr

/-- The `counts` object of the view's JSON response. -/
structure ToggleCounts where
  total : Nat
  completed : Nat
  readingsTotal : Nat
  readingsCompleted : Nat
  assignmentsTotal : Nat
  assignmentsCompleted : Nat
deriving DecidableEq, Repr

/-- The response of `toggle_lesson_progress`.  `ok` carries the JSON fields
the properties below refer to (`section`, `index`, `inline_completed`,
`lesson_completed`, `credits_awarded_now`, `counts`); the remaining JSON
fields (`lesson_materials_percent`, the course-level lesson counts and the
credit totals) are display aggregates over parts of the store outside the
modelled slice and are not referenced by any property. -/
inductive ToggleResponse where
  | forbidden (error : String)                -- JSON error body, HTTP 403
  | badRequest (error : String)               -- JSON error body, HTTP 400
  | serverError                               -- unhandled exception, HTTP 500, no JSON body
  | ok (sec : ItemSection) (index : Int) (inline_completed : Bool)
       (lesson_completed : Bool) (credits_awarded_now : Nat)
       (counts : ToggleCounts)
deriving DecidableEq, Repr

/-- ASCII lowercasing, embedding `str.lower()` on the ASCII strings the view
compares against. -/
def asciiLower (s : String) : String :=
  String.mk (s.data.map Char.toLower)

/-- The characters Python `str.strip()` removes (the ASCII whitespace class;
non-ASCII whitespace does not occur in the modelled data). -/
def isPySpace (c : Char) : Bool :=
  c = ' ' || c = '\t' || c = '\n' || c = '\r' || c = '\x0b' || c = '\x0c'

/-- Remove leading and trailing whitespace from a character list. -/
def stripEnds (l : List Char) : List Char :=
  ((l.dropWhile isPySpace).reverse.dropWhile isPySpace).reverse

/-- Python `str.strip()`. -/
def pyStrip (s : String) : String :=
  String.mk (stripEnds s.data)

/-- Python `str.splitlines()` on `"\n"`-separated text, as a split of the
character list.  (`splitlines` drops a trailing empty segment and also splits
on `"\r"`; both differences vanish under the blank-line filter applied at
every use site, since `strip` removes `"\r"`.) -/
def splitNl : List Char → List (List Char)
  | [] => [[]]
  | c :: rest =>
    match splitNl rest with
    | [] => [[]]
    | h :: t => if c = '\n' then [] :: h :: t else (c :: h) :: t

/-- Python `prefix in`-style `str.startswith(p)` (the ORM
`student_id__startswith` filter). -/
def strStartsWith (p s : String) : Bool :=
  p.data.isPrefixOf s.data

/-- `str(desired).lower() in ("1", "true", "yes", "on")` from the view; a
missing POST parameter is Python `None`, and `str(None) = "None"`. -/
def truthyCompleted (raw : Option String) : Bool :=
  let s := match raw with
    | some v => v
    | none => "None"
  ["1", "true", "yes", "on"].contains (asciiLower s)

/-- `section not in (SECTION_READING, SECTION_ASSIGNMENT)` from the view,
phrased as a parse: `none` means the view rejects with "invalid section". -/
def parseSection? (raw : Option String) : Option ItemSection :=
  match raw with
  | some "reading" => some ItemSection.reading
  | some "assignment" => some ItemSection.assignment
  | _ => none

/-- Value of a list of ASCII digit characters, most significant first. -/
def digitsToNat (l : List Char) : Nat :=
  l.foldl (fun a c => a * 10 + (c.toNat - 48)) 0

/-- Nonempty all-digit character list (Python `str.isdigit` on ASCII data). -/
def isDigits (l : List Char) : Bool :=
  decide (l ≠ []) && l.all Char.isDigit

/-- Tail of a PEP 515 digit group: digit characters in which every
underscore is followed by a digit (so `"1_0"` groups, while `"1__0"` and
`"1_"` do not). -/
def pyDigitsTail : List Char → Bool
  | [] => true
  | ['_'] => false
  | '_' :: c :: rest => c.isDigit && pyDigitsTail rest
  | c :: rest => c.isDigit && pyDigitsTail rest

/-- A full unsigned integer literal as Python `int()` accepts it: nonempty,
starting with a digit, with single underscores allowed only between digits
(PEP 515). -/
def pyIntDigits : List Char → Bool
  | [] => false
  | c :: rest => c.isDigit && pyDigitsTail rest

/-- Numeric value of a PEP 515 digit group: the digits with the grouping
underscores removed. -/
def pyGroupVal (l : List Char) : Nat :=
  digitsToNat (l.filter (fun ch => ch ≠ '_'))

/-- Python `int(s)` for `s : Option String`: `int(None)` raises `TypeError`;
on a string it strips surrounding whitespace, then accepts one optional sign
and a nonempty run of digits with optional PEP 515 underscore grouping.
(Non-ASCII digits and whitespace are not modelled.)  `none` means the call
raises, which the view turns into the "index must be an integer" rejection. -/
def pyInt? (raw : Option String) : Option Int :=
  match raw with
  | none => none
  | some s =>
    match (pyStrip s).data with
    | '-' :: rest => if pyIntDigits rest then some (-(pyGroupVal rest : Int)) else none
    | '+' :: rest => if pyIntDigits rest then some (pyGroupVal rest : Int) else none
    | l => if pyIntDigits l then some (pyGroupVal l : Int) else none

/-- Number of non-blank lines of a text field:
`sum(1 for line in (text or "").splitlines() if line.strip())`. -/
def nonblankLineCount (s : String) : Nat :=
  ((splitNl s.data).filter (fun l => stripEnds l ≠ [])).length

/-- Key match of a `LessonItemProgress` row against `(section, item_index)`. -/
def keyMatch (sec : ItemSection) (idx : Int) (r : ItemRow) : Bool :=
  r.1 = sec && r.2.1 = idx

/-- The view's upsert:
`LessonItemProgress.objects.get_or_create(...)` followed by
`ip.completed = completed_flag; ip.save()`.  The unique constraint on
`(student, lesson, section, item_index)` makes this update-or-insert. -/
def setItem (items : List ItemRow) (sec : ItemSection) (idx : Int) (flag : Bool) :
    List ItemRow :=
  if items.any (keyMatch sec idx) then
    items.map (fun r => if keyMatch sec idx r then (sec, idx, flag) else r)
  else
    items ++ [(sec, idx, flag)]

/-- `LessonItemProgress.objects.filter(student, lesson, section, completed=True).count()`. -/
def completedCount (items : List ItemRow) (sec : ItemSection) : Nat :=
  (items.filter (fun r => r.1 = sec && r.2.2 = true)).length

/-- Whether a completed row exists for `(section, index)`. -/
def itemCompleted (items : List ItemRow) (sec : ItemSection) (idx : Int) : Bool :=
  items.any (fun r => r.1 = sec && r.2.1 = idx && r.2.2 = true)

/-- The body of `toggle_lesson_progress` after role, enrollment and payload
validation: the per-item upsert, the rollup recomputation, the mirror to
`LessonProgress` and the credit award/revoke (courses/views.py lines 553-624). -/
def toggleCore (lesson : LessonData) (completed_flag : Bool) (sec : ItemSection)
    (idx : Int) (st : ProgressSt) : ToggleResponse × ProgressSt :=
  -- upsert per-item progress
  let items := setItem st.items sec idx completed_flag
  -- recompute overall progress (readings + assignments only)
  let readings_count := nonblankLineCount lesson.reading_list
  let assignments_count := nonblankLineCount lesson.assignments
  let completed_readings := completedCount items ItemSection.reading
  let completed_assignments := completedCount items ItemSection.assignment
  let total_items := readings_count + assignments_count
  let completed_items := completed_readings + completed_assignments
  let all_done := decide (0 < total_items) && decide (completed_items = total_items)
  -- mirror to lesson-level progress (get_or_create, then save iff changed;
  -- the net stored value is `all_done` either way)
  let previously_completed := st.lp.getD false
  -- award credits once / revoke: get_or_create with default credits =
  -- lesson.credit_points, re-aligning credits when the row already exists
  let txnAward : Option Nat × Nat :=
    if all_done then
      match st.txn with
      | none => (some lesson.credit_points, lesson.credit_points)
      | some _ => (some lesson.credit_points, 0)
    else if previously_completed then
      (none, 0)
    else
      (st.txn, 0)
  (ToggleResponse.ok sec idx completed_flag all_done txnAward.2
    { total := total_items, completed := completed_items,
      readingsTotal := readings_count, readingsCompleted := completed_readings,
      assignmentsTotal := assignments_count,
      assignmentsCompleted := completed_assignments },
   { items := items, lp := some all_done, txn := txnAward.1 })

/-- `toggle_lesson_progress` (courses/views.py, lines 518-624) on the
modelled slice.  Inputs: the caller's role, whether an `Enrollment` row for
(caller, lesson.course) exists, the lesson's fields, the three POST
parameters (`none` = absent), and the slice state.  Returns the response and
the updated slice.  The store here is ideal (it accepts whatever the view
writes); `toggle_lesson_progress_db` below composes the same view with the
`item_index ≥ 0` check constraint of the `lesson_item_progress` table. -/
def toggle_lesson_progress (role : Role) (enrolled : Bool) (lesson : LessonData)
    (completedRaw sectionRaw indexRaw : Option String) (st : ProgressSt) :
    ToggleResponse × ProgressSt :=
  if role ≠ Role.student then
    (ToggleResponse.forbidden "Only students may mark progress", st)
  else if ¬ enrolled then
    (ToggleResponse.forbidden "Student not enrolled in course", st)
  else
    let completed_flag := truthyCompleted completedRaw
    match parseSection? sectionRaw with
    | none => (ToggleResponse.badRequest "invalid section", st)
    | some sec =>
      match pyInt? indexRaw with
      | none => (ToggleResponse.badRequest "index must be an integer", st)
      | some idx => toggleCore lesson completed_flag sec idx st

/-- `toggle_lesson_progress` composed with the store's check constraint on
`LessonItemProgress.item_index`, a `PositiveIntegerField`
(courses/models.py line 200): the database creates the column with an
`item_index ≥ 0` check, so when the view reaches the `get_or_create` upsert
with a negative index the INSERT (or the UPDATE of `ip.save()`, were such a
row ever present — the same constraint keeps negative indices out of the
table) violates the constraint and raises `IntegrityError`.  The view does
not catch it, so the request surfaces as an HTTP 500 with no JSON error body
and nothing written.  On every other path the constraint is satisfied and the
behaviour is exactly that of the view. -/
def toggle_lesson_progress_db (role : Role) (enrolled : Bool) (lesson : LessonData)
    (completedRaw sectionRaw indexRaw : Option String) (st : ProgressSt) :
    ToggleResponse × ProgressSt :=
  if role ≠ Role.student then
    (ToggleResponse.forbidden "Only students may mark progress", st)
  else if ¬ enrolled then
    (ToggleResponse.forbidden "Student not enrolled in course", st)
  else
    let completed_flag := truthyCompleted completedRaw
    match parseSection? sectionRaw with
    | none => (ToggleResponse.badRequest "invalid section", st)
    | some sec =>
      match pyInt? indexRaw with
      | none => (ToggleResponse.badRequest "index must be an integer", st)
      | some idx =>
        if idx < 0 then (ToggleResponse.serverError, st)
        else toggleCore lesson completed_flag sec idx st

/-- One `Enrollment` row: the student, the course, and whether the course's
`status` is `active` (the view counts rows regardless of status; the flag is
carried so properties can speak about *active* enrollments). -/
structure EnrollRow where
  student : Nat
  course : Nat
  courseActive : Bool
deriving DecidableEq, Repr

/-- Outcome of `course_enroll`.  Every non-forbidden branch answers with a
redirect plus a queued flash message; the constructors record which message
call ran (`messages.error` / `messages.success` / `messages.info`). -/
inductive EnrollOutcome where
  | forbidden        -- HttpResponseForbidden("Student role required")
  | capMessage       -- messages.error("You have reached the maximum of 4 enrolled courses.")
  | created          -- messages.success("You have successfully enrolled in ...")
  | alreadyEnrolled  -- messages.info("You are already enrolled in ...")
deriving DecidableEq, Repr

/-- `course_enroll`: role gate, then `Enrollment.objects.filter(student=user).count()`
against the cap of 4 (all of the student's rows, not only active ones), then
`get_or_create(student, course)`. -/
def course_enroll (role : Role) (rows : List EnrollRow)
    (student course : Nat) (courseActive : Bool) : EnrollOutcome × List EnrollRow :=
  if role ≠ Role.student then (EnrollOutcome.forbidden, rows)
  else
    let current_count := (rows.filter (fun r => r.student = student)).length
    if 4 ≤ current_count then (EnrollOutcome.capMessage, rows)
    else if rows.any (fun r => r.student = student && r.course = course) then
      (EnrollOutcome.alreadyEnrolled, rows)
    else
      (EnrollOutcome.created, rows ++ [⟨student, course, courseActive⟩])

/-- `Course.STATUS_ACTIVE` / `Course.STATUS_INACTIVE`. -/
inductive CStatus where
  | active
  | inactive
deriving DecidableEq, Repr

/-- The slice of one course's persisted state that `Course.save` touches:
the stored `status` (`none` = no row yet), the normalized `credit_points`,
and the course's `Enrollment` rows (students). -/
structure CourseSt where
  stored : Option CStatus
  credit_points : Nat
  enrollments : List Nat
deriving DecidableEq, Repr

/-- `Course.save` with `self.status = newStatus`: force `credit_points = 30`;
fetch the existing row; if one exists and its stored status is `inactive`,
delete all the course's enrollments; then write the row. -/
def courseSave (st : CourseSt) (newStatus : CStatus) : CourseSt :=
  let enr := if st.stored = some CStatus.inactive then [] else st.enrollments
  { stored := some newStatus, credit_points := 30, enrollments := enr }

/-- Events in the life of one course: a `Course.save` carrying the in-memory
status being written (the first save is the creation), or an enrollment row
being created for it (`course_enroll` performs no status check, so students
can enroll regardless of the stored status). -/
inductive CourseEvent where
  | save (status : CStatus)
  | enroll (student : Nat)
deriving DecidableEq, Repr

/-- Unsaved course: no stored row, default `credit_points = 30`, no enrollments. -/
def courseInit : CourseSt := ⟨none, 30, []⟩

/-- One event against the course state. -/
def courseStep (st : CourseSt) (ev : CourseEvent) : CourseSt :=
  match ev with
  | CourseEvent.save s => courseSave st s
  | CourseEvent.enroll e => { st with enrollments := st.enrollments ++ [e] }

/-- Run a course history from scratch. -/
def courseRun (evs : List CourseEvent) : CourseSt :=
  evs.foldl courseStep courseInit

/-- Spec-side predicate, formalising the phrase "the Course's status
transitions to inactive": some save in the history writes `inactive` while
the stored status was `active`. -/
def transitionsAux (st : CourseSt) : List CourseEvent → Bool
  | [] => false
  | ev :: rest =>
      (match ev with
        | CourseEvent.save CStatus.inactive => st.stored = some CStatus.active
        | _ => false)
      || transitionsAux (courseStep st ev) rest

/-- Whether a course history ever transitions the stored status from active
to inactive. -/
def transitionedToInactive (evs : List CourseEvent) : Bool :=
  transitionsAux courseInit evs

/-- `User.STUDENT_ID_PREFIX`. -/
def STUDENT_ID_PREFIX : String := "stu"

/-- `User.STUDENT_ID_PADDING`. -/
def STUDENT_ID_PADDING : Nat := 4

/-- Decimal digit characters, most significant first, of `n` written with at
most `fuel` recursive steps (`n` always has fewer than `n + 1` digits). -/
def natDigitsAux : Nat → Nat → List Char
  | 0, _ => []
  | fuel + 1, n =>
    if n < 10 then [Char.ofNat (48 + n)]
    else natDigitsAux fuel (n / 10) ++ [Char.ofNat (48 + n % 10)]

/-- Decimal digit characters of `n`, most significant first (the digits of
Python's `str(n)` / `f"{n:d}"` for `n ≥ 0`). -/
def natDigits (n : Nat) : List Char :=
  natDigitsAux (n + 1) n

/-- Left zero-padding to a minimum width, as in `f"{n:0{width}d}"`. -/
def zeroPad (width : Nat) (l : List Char) : List Char :=
  List.replicate (width - l.length) '0' ++ l

/-- `f"{prefix}{n:0{width}d}"` with the fixed prefix and padding. -/
def candidateId (n : Nat) : String :=
  STUDENT_ID_PREFIX ++ String.mk (zeroPad STUDENT_ID_PADDING (natDigits n))

/-- Numeric suffix of an existing id, as read by `_generate_student_id`:
ids are pre-filtered with `student_id__startswith=prefix`, then
`suffix = sid[len(prefix):]` contributes iff `suffix.isdigit()`. -/
def prefixNumber? (sid : String) : Option Nat :=
  if strStartsWith STUDENT_ID_PREFIX sid then
    let suffix := sid.data.drop 3
    if isDigits suffix then some (digitsToNat suffix) else none
  else none

/-- `max_number`: the maximum numeric suffix over the existing ids (0 when
none parse). -/
def maxStudentNumber (ids : List String) : Nat :=
  ids.foldl (fun m sid =>
    match prefixNumber? sid with
    | some k => max m k
    | none => m) 0

/-- The `while cls.objects.filter(student_id=candidate).exists()` probe loop.
The source loop is unbounded; it is embedded with explicit fuel, and
`generate_student_id_eq` below proves the guard is false already at the first
candidate, so the loop body never runs and the fuel value is irrelevant. -/
def probeCandidate (ids : List String) : Nat → Nat → String
  | 0, n => candidateId n
  | fuel + 1, n =>
      if ids.contains (candidateId n) then probeCandidate ids fuel (n + 1)
      else candidateId n

/-- `User._generate_student_id` over the list of existing (non-null)
`student_id` values. -/
def generate_student_id (ids : List String) : String :=
  probeCandidate ids (ids.length + 1) (maxStudentNumber ids + 1)

/-- The fields of `accounts.models.User` that `User.save` reads or writes. -/
structure UserRec where
  email : String
  username : String
  is_superuser : Bool
  is_staff : Bool
  role : Role
  student_id : Option String
deriving DecidableEq, Repr

/-- Python truthiness of the `student_id` field (`not self.student_id`):
falsy when the column is NULL or the empty string. -/
def blankId : Option String → Bool
  | none => true
  | some s => s = ""

/-- `User.save` (accounts/models.py lines 32-44): sync `username` with the
lowercased stripped email when the email is truthy; force role `ADMIN` for
superuser/staff; then lazily assign a generated student id when the
(post-derivation) role is `STUDENT` and no id is assigned.
`ids` is the list of existing non-null student ids used by the generator. -/
def userSave (ids : List String) (u : UserRec) : UserRec :=
  let u1 :=
    if u.email ≠ "" then
      let e := asciiLower (pyStrip u.email)
      { u with email := e, username := e }
    else u
  let u2 :=
    if u1.is_superuser || u1.is_staff then { u1 with role := Role.admin } else u1
  if u2.role = Role.student ∧ blankId u2.student_id then
    { u2 with student_id := some (generate_student_id ids) }
  else u2

/-- Python 3 `round(q)`: round half to even (banker's rounding), on the
rational embedding of the float values involved. -/
def pyRound (q : ℚ) : ℤ :=
  if q - ⌊q⌋ < 1 / 2 then ⌊q⌋
  else if 1 / 2 < q - ⌊q⌋ then ⌊q⌋ + 1
  else if ⌊q⌋ % 2 = 0 then ⌊q⌋ else ⌊q⌋ + 1

/-- Python `round(q, 1)`. -/
def pyRound1 (q : ℚ) : ℚ :=
  (pyRound (q * 10) : ℚ) / 10

/-- One `CreditTransaction` row as read by the report aggregations. -/
structure TxnRow where
  student : Nat
  lesson : Nat
  credits : Nat
deriving DecidableEq, Repr

/-- `CreditTransaction.objects.filter(student=s) ... Sum("credits")`. -/
def creditTotal (txns : List TxnRow) (s : Nat) : Nat :=
  ((txns.filter (fun r => r.student = s)).map (fun r => r.credits)).sum

/-- `instructor_report_list` (reports/views.py lines 52-56):
`round((total_credits / 120) * 100, 1)` then `max(0.0, min(_, 100.0))`. -/
def instructorProgressPercent (total_credits : Nat) : ℚ :=
  max 0 (min (pyRound1 ((total_credits : ℚ) / 120 * 100)) 100)

/-- `student_overall_report` (accounts/views.py):
`(total_credits / 120 * 100) if total_credits else 0`, then
`max(0.0, min(round(_, 1), 100.0))`. -/
def studentOverallProgress (total_credits : Nat) : ℚ :=
  max 0 (min
    (pyRound1 (if total_credits ≠ 0 then (total_credits : ℚ) / 120 * 100 else 0)) 100)

/-- Spec-side formula, stated from the specification's words for comparison:
"total credits earned across all lessons divided by a fixed denominator of
120 possible credits, times 100, clamped to [0, 100]". -/
def specOverallPercent (total_credits : Nat) : ℚ :=
  max 0 (min ((total_credits : ℚ) / 120 * 100) 100)

/-- Total number of addressable items of a lesson. -/
def lessonItemTotal (lesson : LessonData) : Nat :=
  nonblankLineCount lesson.reading_list + nonblankLineCount lesson.assignments

/-- Completed item rows across both sections. -/
def completedItemCount (items : List ItemRow) : Nat :=
  completedCount items ItemSection.reading + completedCount items ItemSection.assignment

/-- The view's `all_done` rollup for a given item-row table. -/
def allDone (lesson : LessonData) (items : List ItemRow) : Bool :=
  decide (0 < lessonItemTotal lesson) &&
    decide (completedItemCount items = lessonItemTotal lesson)

/-- `credits_awarded_now` field of a toggle response (0 on error responses). -/
def awardedNow : ToggleResponse → Nat
  | ToggleResponse.ok _ _ _ _ a _ => a
  | _ => 0

/-- Uniqueness of `(section, item_index)` keys among the rows — the
`unique_together` constraint of `LessonItemProgress`. -/
def NodupKeys (items : List ItemRow) : Prop :=
  (items.map (fun r => (r.1, r.2.1))).Nodup

/-- Number of addressable items of one section of a lesson. -/
def sectionCount (lesson : LessonData) : ItemSection → Nat
  | ItemSection.reading => nonblankLineCount lesson.reading_list
  | ItemSection.assignment => nonblankLineCount lesson.assignments

/-- All completed rows address an in-range item of their section. -/
def InRange (lesson : LessonData) (items : List ItemRow) : Prop :=
  ∀ r ∈ items, r.2.2 = true → 0 ≤ r.2.1 ∧ r.2.1 < (sectionCount lesson r.1 : Int)

instance nodupKeysDecidable (items : List ItemRow) : Decidable (NodupKeys items) :=
  List.nodupDecidable _

instance inRangeDecidable (lesson : LessonData) (items : List ItemRow) :
    Decidable (InRange lesson items) :=
  List.decidableBAll _ _

/-- `lesson_completed` field of a toggle response (`none` on errors). -/
def lessonCompletedOf : ToggleResponse → Option Bool
  | ToggleResponse.ok _ _ _ b _ _ => some b
  | _ => none

theorem toggle_success (role : Role) (enrolled : Bool) (lesson : LessonData)
    (c s i : Option String) (st : ProgressSt) (sec : ItemSection) (idx : Int)
    (hrole : role = Role.student) (hen : enrolled = true)
    (hs : parseSection? s = some sec) (hi : pyInt? i = some idx) :
    toggle_lesson_progress role enrolled lesson c s i st
      = toggleCore lesson (truthyCompleted c) sec idx st := by
  subst hrole hen
  simp [toggle_lesson_progress, hs, hi]

theorem toggleCore_snd (l : LessonData) (f : Bool) (sec : ItemSection) (idx : Int)
    (st : ProgressSt) :
    (toggleCore l f sec idx st).2 =
      ⟨setItem st.items sec idx f,
       some (allDone l (setItem st.items sec idx f)),
       if allDone l (setItem st.items sec idx f) then some l.credit_points
       else if st.lp.getD false then none else st.txn⟩ := by
  unfold toggleCore allDone lessonItemTotal completedItemCount
  cases htx : st.txn <;>
    simp only [htx, Bool.and_eq_true, decide_eq_true_eq] <;>
    split_ifs <;> simp_all

theorem toggleCore_fst (l : LessonData) (f : Bool) (sec : ItemSection) (idx : Int)
    (st : ProgressSt) :
    (toggleCore l f sec idx st).1 =
      ToggleResponse.ok sec idx f (allDone l (setItem st.items sec idx f))
        (if allDone l (setItem st.items sec idx f) && st.txn.isNone
          then l.credit_points else 0)
        ⟨lessonItemTotal l, completedItemCount (setItem st.items sec idx f),
         nonblankLineCount l.reading_list,
         completedCount (setItem st.items sec idx f) ItemSection.reading,
         nonblankLineCount l.assignments,
         completedCount (setItem st.items sec idx f) ItemSection.assignment⟩ := by
  unfold toggleCore allDone lessonItemTotal completedItemCount
  cases htx : st.txn <;>
    simp only [htx, Bool.and_eq_true, decide_eq_true_eq] <;>
    split_ifs <;> simp_all

theorem map_eq_self_of_mem {α : Type _} {l : List α} {g : α → α}
    (h : ∀ a ∈ l, g a = a) : l.map g = l := by
  induction l with
  | nil => rfl
  | cons x xs ih => simp [h x (by simp), ih (fun a ha => h a (by simp [ha]))]

theorem setItem_any (l : List ItemRow) (sec : ItemSection) (idx : Int) (f : Bool) :
    (setItem l sec idx f).any (keyMatch sec idx) = true := by
  unfold setItem
  split
  · rename_i h
    rcases List.any_eq_true.1 h with ⟨r, hr, hm⟩
    refine List.any_eq_true.2 ⟨(sec, idx, f), List.mem_map.2 ⟨r, hr, ?_⟩, ?_⟩
    · simp [hm]
    · simp [keyMatch]
  · exact List.any_eq_true.2 ⟨(sec, idx, f), by simp, by simp [keyMatch]⟩

theorem setItem_match_eq (l : List ItemRow) (sec : ItemSection) (idx : Int) (f : Bool)
    (r : ItemRow) (hr : r ∈ setItem l sec idx f) (hm : keyMatch sec idx r = true) :
    r = (sec, idx, f) := by
  unfold setItem at hr
  split at hr
  · rcases List.mem_map.1 hr with ⟨r0, hr0, heq⟩
    by_cases h0 : keyMatch sec idx r0 = true
    · rw [if_pos h0] at heq; exact heq.symm
    · rw [if_neg h0] at heq; subst heq; exact absurd hm h0
  · rename_i h
    rcases List.mem_append.1 hr with h1 | h1
    · exact absurd (List.any_eq_true.2 ⟨r, h1, hm⟩) (by simpa using h)
    · simpa using h1

theorem setItem_idem (l : List ItemRow) (sec : ItemSection) (idx : Int) (f : Bool) :
    setItem (setItem l sec idx f) sec idx f = setItem l sec idx f := by
  have hany := setItem_any l sec idx f
  have hmatch : ∀ r ∈ setItem l sec idx f, keyMatch sec idx r = true → r = (sec, idx, f) :=
    fun r hr hm => setItem_match_eq l sec idx f r hr hm
  generalize hg : setItem l sec idx f = m at hany hmatch ⊢
  unfold setItem
  rw [if_pos hany]
  exact map_eq_self_of_mem (fun r hr => by
    by_cases h0 : keyMatch sec idx r = true
    · rw [if_pos h0, hmatch r hr h0]
    · rw [if_neg h0])

/-- C10: a non-Student caller of the toggle endpoint is rejected with the 403
JSON error `{"error": "Only students may mark progress"}` before the
enrollment check and before any read or write of progress rows: the response
and the unchanged state are the same whatever `enrolled` is, so the
enrollment precondition is never consulted for non-students. -/
theorem C10_non_student_forbidden (role : Role) (enrolled : Bool) (lesson : LessonData)
    (c s i : Option String) (st : ProgressSt) (h : role ≠ Role.student) :
    toggle_lesson_progress role enrolled lesson c s i st
      = (ToggleResponse.forbidden "Only students may mark progress", st) := by
  simp [toggle_lesson_progress, h]

theorem C10_witness :
    toggle_lesson_progress Role.instructor false ⟨"A\nB", "", 30⟩ (some "true")
        (some "reading") (some "0") ⟨[], none, none⟩
      = (ToggleResponse.forbidden "Only students may mark progress", ⟨[], none, none⟩) :=
  C10_non_student_forbidden Role.instructor false ⟨"A\nB", "", 30⟩ (some "true")
    (some "reading") (some "0") ⟨[], none, none⟩ (by decide)

/-- C4, counterexample: for an enrolled student the negative index `"-1"` is
NOT rejected with a 400 JSON validation error — `int("-1")` parses and view
validation passes; the request instead dies at the `get_or_create` write,
whose INSERT violates the `item_index ≥ 0` check constraint of the
`PositiveIntegerField` column: an unhandled `IntegrityError`, surfacing as an
HTTP 500 with no JSON error body (though indeed with no row written). -/
theorem C4_counterexample :
    toggle_lesson_progress_db Role.student true ⟨"A\nB", "", 30⟩ (some "true")
        (some "reading") (some "-1") ⟨[], none, none⟩
      = (ToggleResponse.serverError, ⟨[], none, none⟩) := by
  decide

/-- C4, amended: for an enrolled student, a request whose section is not one
of {reading, assignment} or whose index does not parse under Python `int()`
(sign and PEP 515 underscore grouping included) is rejected with an HTTP 400
JSON validation error and no row of any kind is written.  A negative integer
index, however, is not rejected with a validation error: it passes view
validation, and the write then violates the `item_index ≥ 0` check
constraint, surfacing as an unhandled `IntegrityError` (HTTP 500) — nothing
is written, but the response is a server error, not the claimed 400. -/
theorem C4_validation_rejects_before_write (lesson : LessonData)
    (c s i : Option String) (st : ProgressSt) :
    ((parseSection? s = none ∨ pyInt? i = none) →
      (toggle_lesson_progress_db Role.student true lesson c s i st).2 = st ∧
      ((toggle_lesson_progress_db Role.student true lesson c s i st).1
          = ToggleResponse.badRequest "invalid section" ∨
       (toggle_lesson_progress_db Role.student true lesson c s i st).1
          = ToggleResponse.badRequest "index must be an integer")) ∧
    (∀ (sec : ItemSection) (idx : Int), parseSection? s = some sec →
      pyInt? i = some idx → idx < 0 →
      toggle_lesson_progress_db Role.student true lesson c s i st
        = (ToggleResponse.serverError, st)) := by
  constructor
  · intro hbad
    rcases hbad with h | h
    · simp [toggle_lesson_progress_db, h]
    · cases hs : parseSection? s with
      | none => simp [toggle_lesson_progress_db, hs]
      | some sec => simp [toggle_lesson_progress_db, hs, h]
  · intro sec idx hs hi hneg
    simp [toggle_lesson_progress_db, hs, hi, hneg]

theorem C4_witness :
    ((toggle_lesson_progress_db Role.student true ⟨"A\nB", "", 30⟩ (some "true")
        (some "bogus") (some "0") ⟨[], none, none⟩).2 = ⟨[], none, none⟩ ∧
     ((toggle_lesson_progress_db Role.student true ⟨"A\nB", "", 30⟩ (some "true")
        (some "bogus") (some "0") ⟨[], none, none⟩).1
        = ToggleResponse.badRequest "invalid section" ∨
      (toggle_lesson_progress_db Role.student true ⟨"A\nB", "", 30⟩ (some "true")
        (some "bogus") (some "0") ⟨[], none, none⟩).1
        = ToggleResponse.badRequest "index must be an integer")) ∧
    toggle_lesson_progress_db Role.student true ⟨"A\nB", "", 30⟩ (some "true")
        (some "reading") (some "-2") ⟨[], none, none⟩
      = (ToggleResponse.serverError, ⟨[], none, none⟩) :=
  ⟨(C4_validation_rejects_before_write ⟨"A\nB", "", 30⟩ (some "true") (some "bogus")
      (some "0") ⟨[], none, none⟩).1 (Or.inl (by decide)),
   (C4_validation_rejects_before_write ⟨"A\nB", "", 30⟩ (some "true") (some "reading")
      (some "-2") ⟨[], none, none⟩).2 ItemSection.reading (-2) (by decide) (by decide)
      (by decide)⟩

/-- C1: every call to the toggle endpoint preserves the invariant that a
`CreditTransaction` row for (student, lesson) exists iff the
`LessonProgress.completed` flag for that pair is true (an absent
`LessonProgress` row counts as not completed). -/
theorem C1_award_iff_completed (role : Role) (enrolled : Bool) (lesson : LessonData)
    (c s i : Option String) (st : ProgressSt)
    (hinv : st.txn.isSome = st.lp.getD false) :
    ((toggle_lesson_progress role enrolled lesson c s i st).2.txn).isSome
      = ((toggle_lesson_progress role enrolled lesson c s i st).2.lp).getD false := by
  by_cases hrole : role = Role.student
  · by_cases hen : enrolled = true
    · cases hs : parseSection? s with
      | none =>
        subst hrole hen
        simpa [toggle_lesson_progress, hs] using hinv
      | some sec =>
        cases hi : pyInt? i with
        | none =>
          subst hrole hen
          simpa [toggle_lesson_progress, hs, hi] using hinv
        | some idx =>
          rw [toggle_success role enrolled lesson c s i st sec idx hrole hen hs hi,
            toggleCore_snd]
          cases had : allDone lesson (setItem st.items sec idx (truthyCompleted c)) <;>
            cases hlp : st.lp.getD false <;>
            simp_all
    · have hf : enrolled = false := by revert hen; cases enrolled <;> simp
      subst hrole hf
      simpa [toggle_lesson_progress] using hinv
  · simpa [toggle_lesson_progress, hrole] using hinv

theorem C1_witness :
    (((toggle_lesson_progress Role.student true ⟨"A\nB", "", 30⟩ (some "true")
        (some "reading") (some "0") ⟨[], none, none⟩).2.txn).isSome
      = ((toggle_lesson_progress Role.student true ⟨"A\nB", "", 30⟩ (some "true")
        (some "reading") (some "0") ⟨[], none, none⟩).2.lp).getD false) :=
  C1_award_iff_completed Role.student true ⟨"A\nB", "", 30⟩ (some "true")
    (some "reading") (some "0") ⟨[], none, none⟩ (by decide)

/-- C3: for an enrolled student and a valid payload, toggling the same item
to completed=true twice in a row yields the same resulting state both times;
`credits_awarded_now` is nonzero only on a call that newly creates the
`CreditTransaction` row, a toggle-on while a transaction already exists
awards 0, and the repeated call always awards 0. -/
theorem C3_toggle_on_idempotent (lesson : LessonData) (c s i : Option String)
    (sec : ItemSection) (idx : Int) (st : ProgressSt)
    (hs : parseSection? s = some sec) (hi : pyInt? i = some idx)
    (hon : truthyCompleted c = true) :
    (toggle_lesson_progress Role.student true lesson c s i
        (toggle_lesson_progress Role.student true lesson c s i st).2).2
      = (toggle_lesson_progress Role.student true lesson c s i st).2 ∧
    (st.txn.isSome = true →
      awardedNow (toggle_lesson_progress Role.student true lesson c s i st).1 = 0) ∧
    (awardedNow (toggle_lesson_progress Role.student true lesson c s i st).1 ≠ 0 →
      st.txn = none ∧
      ((toggle_lesson_progress Role.student true lesson c s i st).2.txn).isSome = true) ∧
    awardedNow (toggle_lesson_progress Role.student true lesson c s i
        (toggle_lesson_progress Role.student true lesson c s i st).2).1 = 0 := by
  have e : ∀ st' : ProgressSt, toggle_lesson_progress Role.student true lesson c s i st'
      = toggleCore lesson (truthyCompleted c) sec idx st' :=
    fun st' => toggle_success _ _ _ _ _ _ _ _ _ rfl rfl hs hi
  simp only [e, toggleCore_snd, toggleCore_fst, setItem_idem, awardedNow]
  cases had : allDone lesson (setItem st.items sec idx (truthyCompleted c)) <;>
    cases htx : st.txn <;>
    simp_all

theorem C3_witness :
    ((parseSection? (some "reading") = some ItemSection.reading) ∧
     (pyInt? (some "0") = some (0 : Int)) ∧
     (truthyCompleted (some "true") = true)) ∧
    ((toggle_lesson_progress Role.student true ⟨"A", "", 30⟩ (some "true")
        (some "reading") (some "0")
        (toggle_lesson_progress Role.student true ⟨"A", "", 30⟩ (some "true")
          (some "reading") (some "0") ⟨[], none, none⟩).2).2
      = (toggle_lesson_progress Role.student true ⟨"A", "", 30⟩ (some "true")
          (some "reading") (some "0") ⟨[], none, none⟩).2 ∧
    ((⟨[], none, none⟩ : ProgressSt).txn.isSome = true →
      awardedNow (toggle_lesson_progress Role.student true ⟨"A", "", 30⟩ (some "true")
        (some "reading") (some "0") ⟨[], none, none⟩).1 = 0) ∧
    (awardedNow (toggle_lesson_progress Role.student true ⟨"A", "", 30⟩ (some "true")
        (some "reading") (some "0") ⟨[], none, none⟩).1 ≠ 0 →
      (⟨[], none, none⟩ : ProgressSt).txn = none ∧
      ((toggle_lesson_progress Role.student true ⟨"A", "", 30⟩ (some "true")
        (some "reading") (some "0") ⟨[], none, none⟩).2.txn).isSome = true) ∧
    awardedNow (toggle_lesson_progress Role.student true ⟨"A", "", 30⟩ (some "true")
        (some "reading") (some "0")
        (toggle_lesson_progress Role.student true ⟨"A", "", 30⟩ (some "true")
          (some "reading") (some "0") ⟨[], none, none⟩).2).1 = 0) :=
  ⟨⟨by decide, by decide, by decide⟩,
   C3_toggle_on_idempotent ⟨"A", "", 30⟩ (some "true") (some "reading") (some "0")
     ItemSection.reading 0 ⟨[], none, none⟩ (by decide) (by decide) (by decide)⟩

theorem filter_active_le_filter_student (rows : List EnrollRow) (student : Nat) :
    (rows.filter (fun r => r.student = student && r.courseActive)).length
      ≤ (rows.filter (fun r => decide (r.student = student))).length := by
  induction rows with
  | nil => simp
  | cons r t ih =>
    by_cases h1 : r.student = student
    · by_cases h2 : r.courseActive
      · simp [h1, h2]; omega
      · simp [h1, h2]; omega
    · simp [h1]; exact ih

/-- C6: a student who already holds 4 active enrollments gets a no-op with a
user-facing message from the enroll action (not an error response): no
`Enrollment` row is created and the active-enrollment count stays 4. -/
theorem C6_enrollment_cap (rows : List EnrollRow) (student course : Nat)
    (cact : Bool)
    (h4 : (rows.filter (fun r => r.student = student && r.courseActive)).length = 4) :
    course_enroll Role.student rows student course cact
      = (EnrollOutcome.capMessage, rows) ∧
    (((course_enroll Role.student rows student course cact).2.filter
        (fun r => r.student = student && r.courseActive)).length = 4) := by
  have hle := filter_active_le_filter_student rows student
  have hcap : 4 ≤ (rows.filter (fun r => decide (r.student = student))).length := by
    omega
  constructor
  · simp [course_enroll, hcap]
  · simp [course_enroll, hcap, h4]

theorem C6_witness :
    course_enroll Role.student
        [⟨1, 10, true⟩, ⟨1, 11, true⟩, ⟨1, 12, true⟩, ⟨1, 13, true⟩] 1 14 true
      = (EnrollOutcome.capMessage,
         [⟨1, 10, true⟩, ⟨1, 11, true⟩, ⟨1, 12, true⟩, ⟨1, 13, true⟩]) ∧
    (((course_enroll Role.student
        [⟨1, 10, true⟩, ⟨1, 11, true⟩, ⟨1, 12, true⟩, ⟨1, 13, true⟩] 1 14 true).2.filter
        (fun r => r.student = 1 && r.courseActive)).length = 4) :=
  C6_enrollment_cap [⟨1, 10, true⟩, ⟨1, 11, true⟩, ⟨1, 12, true⟩, ⟨1, 13, true⟩]
    1 14 true (by decide)

/-- C9: on save, a superuser- or staff-flagged user is force-set to the Admin
role whatever role was supplied, and—because this happens before the
student-id assignment check—such a save never assigns a student id: the
stored `student_id` is exactly the incoming one. -/
theorem C9_admin_flag_forces_role (ids : List String) (u : UserRec)
    (h : u.is_superuser = true ∨ u.is_staff = true) :
    (userSave ids u).role = Role.admin ∧
    (userSave ids u).student_id = u.student_id := by
  unfold userSave
  rcases h with h | h <;> by_cases he : u.email = "" <;> simp [h, he]

theorem C9_witness :
    (userSave [] ⟨"a@b.c", "", false, true, Role.student, none⟩).role = Role.admin ∧
    (userSave [] ⟨"a@b.c", "", false, true, Role.student, none⟩).student_id = none :=
  C9_admin_flag_forces_role [] ⟨"a@b.c", "", false, true, Role.student, none⟩
    (Or.inr rfl)

/-- C7, counterexample: a course created inactive never transitions to
inactive, yet a later save (here one that reactivates it) still deletes the
enrollment created in between — so "saving a course in any other situation
leaves its enrollments unchanged" fails. -/
theorem C7_counterexample :
    transitionedToInactive
        [CourseEvent.save CStatus.inactive, CourseEvent.enroll 1,
         CourseEvent.save CStatus.active] = false ∧
    (courseRun [CourseEvent.save CStatus.inactive, CourseEvent.enroll 1]).enrollments
      = [1] ∧
    (courseRun [CourseEvent.save CStatus.inactive, CourseEvent.enroll 1,
        CourseEvent.save CStatus.active]).enrollments = [] := by
  decide

/-- C7, amended: a save deletes all of the course's enrollments exactly when
the stored status at the time of the save is inactive — this includes the
save following a transition to inactive (the transition save itself deletes
nothing), but also every further save while inactive and the first save of a
course created inactive. -/
theorem C7_cascade_on_stored_inactive (evs : List CourseEvent) (s s2 : CStatus) :
    (courseStep (courseRun evs) (CourseEvent.save s)).enrollments
      = (if (courseRun evs).stored = some CStatus.inactive then []
         else (courseRun evs).enrollments) ∧
    ((courseRun evs).stored = some CStatus.active →
      (courseStep (courseRun evs) (CourseEvent.save CStatus.inactive)).enrollments
        = (courseRun evs).enrollments ∧
      (courseStep (courseStep (courseRun evs) (CourseEvent.save CStatus.inactive))
          (CourseEvent.save s2)).enrollments = []) := by
  refine ⟨rfl, fun h => ⟨?_, ?_⟩⟩ <;> simp [courseStep, courseSave, h]

theorem C7_witness :
    (courseStep (courseRun [CourseEvent.save CStatus.active, CourseEvent.enroll 2])
        (CourseEvent.save CStatus.active)).enrollments
      = (if (courseRun [CourseEvent.save CStatus.active,
            CourseEvent.enroll 2]).stored = some CStatus.inactive then []
         else (courseRun [CourseEvent.save CStatus.active,
            CourseEvent.enroll 2]).enrollments) ∧
    ((courseRun [CourseEvent.save CStatus.active,
        CourseEvent.enroll 2]).stored = some CStatus.active →
      (courseStep (courseRun [CourseEvent.save CStatus.active, CourseEvent.enroll 2])
          (CourseEvent.save CStatus.inactive)).enrollments
        = (courseRun [CourseEvent.save CStatus.active, CourseEvent.enroll 2]).enrollments ∧
      (courseStep (courseStep
          (courseRun [CourseEvent.save CStatus.active, CourseEvent.enroll 2])
          (CourseEvent.save CStatus.inactive))
          (CourseEvent.save CStatus.active)).enrollments = []) :=
  C7_cascade_on_stored_inactive [CourseEvent.save CStatus.active, CourseEvent.enroll 2]
    CStatus.active CStatus.active

theorem floor_le_pyRound (q : ℚ) : ⌊q⌋ ≤ pyRound q := by
  unfold pyRound
  split_ifs <;> omega

theorem pyRound_le (q : ℚ) : (pyRound q : ℚ) ≤ q + 1 / 2 := by
  have h1 := Int.floor_le q
  have h2 := Int.lt_floor_add_one q
  unfold pyRound
  split_ifs <;> push_cast <;> linarith

theorem pyRound_ge (q : ℚ) : q - 1 / 2 ≤ (pyRound q : ℚ) := by
  have h1 := Int.floor_le q
  have h2 := Int.lt_floor_add_one q
  unfold pyRound
  split_ifs <;> push_cast <;> linarith

theorem abs_pyRound1_sub (q : ℚ) : |pyRound1 q - q| ≤ 1 / 20 := by
  have h1 := pyRound_le (q * 10)
  have h2 := pyRound_ge (q * 10)
  rw [abs_le]
  unfold pyRound1
  constructor <;> [linarith; linarith]

theorem pyRound1_nonneg (q : ℚ) (h : 0 ≤ q) : 0 ≤ pyRound1 q := by
  have hf : (0 : ℤ) ≤ ⌊q * 10⌋ := Int.floor_nonneg.2 (by linarith)
  have hle := floor_le_pyRound (q * 10)
  have h0 : (0 : ℚ) ≤ (pyRound (q * 10) : ℚ) := by exact_mod_cast le_trans hf hle
  unfold pyRound1
  linarith

/-- C5, counterexample: with 1 total credit the code reports 0.8 percent
(after rounding to one decimal), while credits/120·100 clamped to [0, 100]
is 5/6 ≈ 0.8333 — so the claimed exact equality fails. -/
theorem C5_counterexample :
    instructorProgressPercent 1 ≠ specOverallPercent 1 ∧
    instructorProgressPercent 1 = 4 / 5 ∧ specOverallPercent 1 = 5 / 6 := by
  have hf : ⌊((1 : ℕ) : ℚ) / 120 * 100 * 10⌋ = 8 := by
    rw [Int.floor_eq_iff]
    norm_num
  have hr : pyRound (((1 : ℕ) : ℚ) / 120 * 100 * 10) = 8 := by
    unfold pyRound
    rw [hf]
    norm_num
  have h1 : instructorProgressPercent 1 = 4 / 5 := by
    unfold instructorProgressPercent pyRound1
    rw [hr]
    rw [min_eq_left (by norm_num), max_eq_right (by norm_num)]
    norm_num
  have h2 : specOverallPercent 1 = 5 / 6 := by
    unfold specOverallPercent
    rw [min_eq_left (by norm_num), max_eq_right (by norm_num)]
    norm_num
  refine ⟨?_, h1, h2⟩
  rw [h1, h2]
  norm_num

/-- C5, amended: both report views compute the same overall percent, namely
credits/120·100 rounded to one decimal place and clamped to [0, 100]; it
never leaves [0, 100], is within 1/20 of the unrounded clamped formula, and
for any total above 120 credits it is exactly 100. -/
theorem C5_overall_percent_clamped (c : Nat) :
    instructorProgressPercent c = studentOverallProgress c ∧
    (120 < c → instructorProgressPercent c = 100) ∧
    0 ≤ instructorProgressPercent c ∧
    instructorProgressPercent c ≤ 100 ∧
    |instructorProgressPercent c - specOverallPercent c| ≤ 1 / 20 := by
  have hq0 : (0 : ℚ) ≤ (c : ℚ) / 120 * 100 := by positivity
  obtain ⟨ha1, ha2⟩ := abs_le.1 (abs_pyRound1_sub ((c : ℚ) / 120 * 100))
  have hp0 : 0 ≤ pyRound1 ((c : ℚ) / 120 * 100) := pyRound1_nonneg _ hq0
  refine ⟨?_, ?_, ?_, ?_, ?_⟩
  · by_cases hc : c = 0
    · subst hc
      norm_num [instructorProgressPercent, studentOverallProgress, pyRound1, pyRound]
    · simp [instructorProgressPercent, studentOverallProgress, hc]
  · intro hc
    have hcq : (121 : ℚ) ≤ (c : ℚ) := by exact_mod_cast hc
    have hfl : (1000 : ℤ) ≤ ⌊(c : ℚ) / 120 * 100 * 10⌋ := by
      rw [Int.le_floor]
      push_cast
      linarith
    have hpr : (1000 : ℚ) ≤ (pyRound ((c : ℚ) / 120 * 100 * 10) : ℚ) := by
      exact_mod_cast le_trans hfl (floor_le_pyRound _)
    have hp100 : (100 : ℚ) ≤ pyRound1 ((c : ℚ) / 120 * 100) := by
      unfold pyRound1
      linarith
    simp only [instructorProgressPercent, min_def, max_def]
    split_ifs <;> linarith
  · exact le_max_left _ _
  · exact max_le (by norm_num) (min_le_right _ _)
  · rw [abs_le]
    simp only [instructorProgressPercent, specOverallPercent, min_def, max_def]
    split_ifs <;> constructor <;> linarith

theorem C5_witness :
    120 < 121 ∧ instructorProgressPercent 121 = 100 :=
  ⟨by norm_num, (C5_overall_percent_clamped 121).2.1 (by norm_num)⟩

theorem int_nodup_range_length {l : List Int} {n : Nat} (hnd : l.Nodup)
    (hb : ∀ x ∈ l, 0 ≤ x ∧ x < (n : Int)) :
    l.length ≤ n ∧ (l.length = n ↔ ∀ j : Nat, j < n → (j : Int) ∈ l) := by
  classical
  have hcard : l.toFinset.card = l.length := List.toFinset_card_of_nodup hnd
  have hTcard : ((Finset.range n).image (fun j : ℕ => (j : ℤ))).card = n := by
    rw [Finset.card_image_of_injective _ (fun a b hab => by exact_mod_cast hab),
      Finset.card_range]
  have hsub : l.toFinset ⊆ (Finset.range n).image (fun j : ℕ => (j : ℤ)) := by
    intro x hx
    obtain ⟨h0, h1⟩ := hb x (List.mem_toFinset.1 hx)
    exact Finset.mem_image.2 ⟨x.toNat, Finset.mem_range.2 (by omega), by omega⟩
  have hlen_le : l.length ≤ n := by
    have := Finset.card_le_card hsub
    omega
  refine ⟨hlen_le, ⟨fun hlen j hj => ?_, fun hall => ?_⟩⟩
  · have heq : l.toFinset = (Finset.range n).image (fun j : ℕ => (j : ℤ)) :=
      Finset.eq_of_subset_of_card_le hsub (by omega)
    have hm : ((j : ℤ)) ∈ l.toFinset := by
      rw [heq]
      exact Finset.mem_image.2 ⟨j, Finset.mem_range.2 hj, rfl⟩
    exact List.mem_toFinset.1 hm
  · have hsub2 : (Finset.range n).image (fun j : ℕ => (j : ℤ)) ⊆ l.toFinset := by
      intro x hx
      rcases Finset.mem_image.1 hx with ⟨j, hj, rfl⟩
      exact List.mem_toFinset.2 (hall j (Finset.mem_range.1 hj))
    have := Finset.card_le_card hsub2
    omega

theorem completedCount_le_iff (items : List ItemRow) (sec : ItemSection) (n : Nat)
    (hnd : NodupKeys items)
    (hr : ∀ r ∈ items, r.1 = sec → r.2.2 = true → 0 ≤ r.2.1 ∧ r.2.1 < (n : Int)) :
    completedCount items sec ≤ n ∧
    (completedCount items sec = n ↔
      ∀ j : Nat, j < n → itemCompleted items sec (j : Int) = true) := by
  classical
  have hlen : completedCount items sec
      = ((items.filter (fun r => r.1 = sec && r.2.2 = true)).map (fun r => r.2.1)).length := by
    simp [completedCount]
  have hkeys : ((items.filter (fun r => r.1 = sec && r.2.2 = true)).map
      (fun r => (r.1, r.2.1))).Nodup :=
    List.Sublist.nodup (List.Sublist.map _ (List.filter_sublist _)) hnd
  have hfst : ∀ p ∈ (items.filter (fun r => r.1 = sec && r.2.2 = true)).map
      (fun r => (r.1, r.2.1)), p.1 = sec := by
    intro p hp
    rcases List.mem_map.1 hp with ⟨r, hrmem, rfl⟩
    have hpred := (List.mem_filter.1 hrmem).2
    simp only [Bool.and_eq_true, decide_eq_true_eq] at hpred
    exact hpred.1
  have hnl : ((items.filter (fun r => r.1 = sec && r.2.2 = true)).map
      (fun r => r.2.1)).Nodup := by
    have hmm : (items.filter (fun r => r.1 = sec && r.2.2 = true)).map (fun r => r.2.1)
        = ((items.filter (fun r => r.1 = sec && r.2.2 = true)).map
            (fun r => (r.1, r.2.1))).map Prod.snd := by
      rw [List.map_map]
      rfl
    rw [hmm]
    refine List.Nodup.map_on ?_ hkeys
    intro x hx y hy hxy
    rcases x with ⟨x1, x2⟩
    rcases y with ⟨y1, y2⟩
    have hx1 := hfst _ hx
    have hy1 := hfst _ hy
    simp only at hx1 hy1 hxy
    simp [hx1, hy1, hxy]
  have hball : ∀ x ∈ (items.filter (fun r => r.1 = sec && r.2.2 = true)).map
      (fun r => r.2.1), 0 ≤ x ∧ x < (n : Int) := by
    intro x hx
    rcases List.mem_map.1 hx with ⟨r, hrmem, rfl⟩
    rcases List.mem_filter.1 hrmem with ⟨hmem, hpred⟩
    simp only [Bool.and_eq_true, decide_eq_true_eq] at hpred
    exact hr r hmem hpred.1 hpred.2
  have hmem_iff : ∀ j : Nat, ((j : Int) ∈ (items.filter
      (fun r => r.1 = sec && r.2.2 = true)).map (fun r => r.2.1)
        ↔ itemCompleted items sec (j : Int) = true) := by
    intro j
    simp only [itemCompleted, List.any_eq_true, List.mem_map, List.mem_filter,
      Bool.and_eq_true, decide_eq_true_eq]
    tauto
  obtain ⟨hle, hiff⟩ := int_nodup_range_length hnl hball
  rw [hlen]
  refine ⟨hle, hiff.trans ⟨fun h j hj => (hmem_iff j).1 (h j hj),
    fun h j hj => (hmem_iff j).2 (h j hj)⟩⟩

theorem allDone_iff_coverage (lesson : LessonData) (items : List ItemRow)
    (hnd : NodupKeys items) (hrange : InRange lesson items)
    (htotal : 0 < lessonItemTotal lesson) :
    allDone lesson items = true ↔
      ∀ (sec : ItemSection) (j : Nat), j < sectionCount lesson sec →
        itemCompleted items sec (j : Int) = true := by
  have hrr : ∀ r ∈ items, r.1 = ItemSection.reading → r.2.2 = true →
      0 ≤ r.2.1 ∧ r.2.1 < (sectionCount lesson ItemSection.reading : Int) := by
    intro r hm h1 h2
    have h := hrange r hm h2
    rwa [h1] at h
  have hra : ∀ r ∈ items, r.1 = ItemSection.assignment → r.2.2 = true →
      0 ≤ r.2.1 ∧ r.2.1 < (sectionCount lesson ItemSection.assignment : Int) := by
    intro r hm h1 h2
    have h := hrange r hm h2
    rwa [h1] at h
  obtain ⟨hler, hiffr⟩ := completedCount_le_iff items ItemSection.reading
    (sectionCount lesson ItemSection.reading) hnd hrr
  obtain ⟨hlea, hiffa⟩ := completedCount_le_iff items ItemSection.assignment
    (sectionCount lesson ItemSection.assignment) hnd hra
  have hTr : lessonItemTotal lesson
      = sectionCount lesson ItemSection.reading
        + sectionCount lesson ItemSection.assignment := rfl
  have hC : completedItemCount items
      = completedCount items ItemSection.reading
        + completedCount items ItemSection.assignment := rfl
  unfold allDone
  rw [Bool.and_eq_true, decide_eq_true_eq, decide_eq_true_eq, hC, hTr]
  constructor
  · rintro ⟨-, hceq⟩
    have h1 : completedCount items ItemSection.reading
        = sectionCount lesson ItemSection.reading := by omega
    have h2 : completedCount items ItemSection.assignment
        = sectionCount lesson ItemSection.assignment := by omega
    intro sec j hj
    cases sec with
    | reading => exact (hiffr.1 h1) j hj
    | assignment => exact (hiffa.1 h2) j hj
  · intro h
    have h1 : completedCount items ItemSection.reading
        = sectionCount lesson ItemSection.reading :=
      hiffr.2 (fun j hj => h ItemSection.reading j hj)
    have h2 : completedCount items ItemSection.assignment
        = sectionCount lesson ItemSection.assignment :=
      hiffa.2 (fun j hj => h ItemSection.assignment j hj)
    refine ⟨by rw [hTr] at htotal; omega, by omega⟩

/-- C2, counterexample: lesson with exactly one addressable item (reading
line "a"); an enrolled student toggles reading index 7 to completed from the
empty state.  The response reports `lesson_completed = true` (mirrored into
`LessonProgress`), yet the one addressable item, reading index 0, has no
completed row — the claimed iff fails because the rollup counts rows without
checking their indices. -/
theorem C2_counterexample :
    sectionCount ⟨"a", "", 30⟩ ItemSection.reading = 1 ∧
    lessonCompletedOf (toggle_lesson_progress Role.student true ⟨"a", "", 30⟩
        (some "true") (some "reading") (some "7") ⟨[], none, none⟩).1 = some true ∧
    (toggle_lesson_progress Role.student true ⟨"a", "", 30⟩
        (some "true") (some "reading") (some "7") ⟨[], none, none⟩).2.lp = some true ∧
    itemCompleted (toggle_lesson_progress Role.student true ⟨"a", "", 30⟩
        (some "true") (some "reading") (some "7") ⟨[], none, none⟩).2.items
      ItemSection.reading 0 = false := by
  decide

/-- C2, amended: for a lesson with at least one addressable item and an
enrolled student, and provided every completed row addresses an in-range item
of its section (out-of-range rows, which the endpoint itself can create,
break the equivalence — see the counterexample), the `lesson_completed` flag
returned by the toggle — equal to the value mirrored into
`LessonProgress.completed` — is true iff every addressable item of both
sections has a completed row. -/
theorem C2_completion_iff_coverage (lesson : LessonData) (c s i : Option String)
    (sec : ItemSection) (idx : Int) (st : ProgressSt)
    (hs : parseSection? s = some sec) (hi : pyInt? i = some idx)
    (htotal : 0 < lessonItemTotal lesson)
    (hnd : NodupKeys (toggle_lesson_progress Role.student true lesson c s i st).2.items)
    (hrange : InRange lesson
      (toggle_lesson_progress Role.student true lesson c s i st).2.items) :
    lessonCompletedOf (toggle_lesson_progress Role.student true lesson c s i st).1
      = (toggle_lesson_progress Role.student true lesson c s i st).2.lp ∧
    ((toggle_lesson_progress Role.student true lesson c s i st).2.lp = some true ↔
      ∀ (sec' : ItemSection) (j : Nat), j < sectionCount lesson sec' →
        itemCompleted (toggle_lesson_progress Role.student true lesson c s i st).2.items
          sec' (j : Int) = true) := by
  have e : toggle_lesson_progress Role.student true lesson c s i st
      = toggleCore lesson (truthyCompleted c) sec idx st :=
    toggle_success _ _ _ _ _ _ _ _ _ rfl rfl hs hi
  rw [e] at hnd hrange ⊢
  rw [toggleCore_snd] at hnd hrange ⊢
  rw [toggleCore_fst]
  refine ⟨rfl, ?_⟩
  simp only [Option.some_inj]
  exact allDone_iff_coverage lesson _ hnd hrange htotal

theorem C2_witness :
    (parseSection? (some "reading") = some ItemSection.reading ∧
     pyInt? (some "0") = some (0 : Int) ∧
     0 < lessonItemTotal ⟨"A", "", 30⟩ ∧
     NodupKeys (toggle_lesson_progress Role.student true ⟨"A", "", 30⟩ (some "true")
        (some "reading") (some "0") ⟨[], none, none⟩).2.items ∧
     InRange ⟨"A", "", 30⟩ (toggle_lesson_progress Role.student true ⟨"A", "", 30⟩
        (some "true") (some "reading") (some "0") ⟨[], none, none⟩).2.items) ∧
    (lessonCompletedOf (toggle_lesson_progress Role.student true ⟨"A", "", 30⟩
        (some "true") (some "reading") (some "0") ⟨[], none, none⟩).1
      = (toggle_lesson_progress Role.student true ⟨"A", "", 30⟩ (some "true")
        (some "reading") (some "0") ⟨[], none, none⟩).2.lp ∧
    ((toggle_lesson_progress Role.student true ⟨"A", "", 30⟩ (some "true")
        (some "reading") (some "0") ⟨[], none, none⟩).2.lp = some true ↔
      ∀ (sec' : ItemSection) (j : Nat), j < sectionCount ⟨"A", "", 30⟩ sec' →
        itemCompleted (toggle_lesson_progress Role.student true ⟨"A", "", 30⟩
          (some "true") (some "reading") (some "0") ⟨[], none, none⟩).2.items
          sec' (j : Int) = true)) :=
  ⟨⟨by decide, by decide, by decide, by decide, by decide⟩,
   C2_completion_iff_coverage ⟨"A", "", 30⟩ (some "true") (some "reading") (some "0")
     ItemSection.reading 0 ⟨[], none, none⟩ (by decide) (by decide) (by decide)
     (by decide) (by decide)⟩

theorem digitsToNat_append_one (l : List Char) (c : Char) :
    digitsToNat (l ++ [c]) = digitsToNat l * 10 + (c.toNat - 48) := by
  unfold digitsToNat
  rw [List.foldl_append]
  rfl

theorem char_digit_toNat (d : Nat) (hd : d < 10) :
    (Char.ofNat (48 + d)).toNat = 48 + d := by
  interval_cases d <;> decide

theorem char_digit_isDigit (d : Nat) (hd : d < 10) :
    (Char.ofNat (48 + d)).isDigit = true := by
  interval_cases d <;> decide

theorem digitsToNat_natDigitsAux (fuel : Nat) :
    ∀ n : Nat, n < fuel → digitsToNat (natDigitsAux fuel n) = n := by
  induction fuel with
  | zero => intro n hn; omega
  | succ fuel ih =>
    intro n hn
    unfold natDigitsAux
    split
    · rename_i h
      unfold digitsToNat
      simp only [List.foldl_cons, List.foldl_nil]
      rw [char_digit_toNat n h]
      omega
    · rename_i h
      rw [digitsToNat_append_one, ih (n / 10) (by omega),
        char_digit_toNat (n % 10) (by omega)]
      omega

theorem digitsToNat_natDigits (n : Nat) : digitsToNat (natDigits n) = n :=
  digitsToNat_natDigitsAux (n + 1) n (by omega)

theorem natDigitsAux_ne_nil (fuel n : Nat) (h : n < fuel) :
    natDigitsAux fuel n ≠ [] := by
  cases fuel with
  | zero => omega
  | succ fuel =>
    unfold natDigitsAux
    split <;> simp

theorem natDigitsAux_all_isDigit (fuel : Nat) :
    ∀ n : Nat, n < fuel → (natDigitsAux fuel n).all Char.isDigit = true := by
  induction fuel with
  | zero => intro n hn; omega
  | succ fuel ih =>
    intro n hn
    unfold natDigitsAux
    split
    · rename_i h
      simp [char_digit_isDigit n h]
    · rename_i h
      rw [List.all_append]
      simp [ih (n / 10) (by omega), char_digit_isDigit (n % 10) (by omega)]

theorem isDigits_natDigits (n : Nat) : isDigits (natDigits n) = true := by
  unfold isDigits
  rw [Bool.and_eq_true, decide_eq_true_eq]
  exact ⟨natDigitsAux_ne_nil (n + 1) n (by omega),
    natDigitsAux_all_isDigit (n + 1) n (by omega)⟩

theorem digitsToNat_replicate_zero (k : Nat) (l : List Char) :
    digitsToNat (List.replicate k '0' ++ l) = digitsToNat l := by
  induction k with
  | zero => simp
  | succ k ih =>
    rw [List.replicate_succ, List.cons_append]
    unfold digitsToNat at ih ⊢
    simp only [List.foldl_cons]
    have h0 : 0 * 10 + ('0'.toNat - 48) = 0 := by decide
    rw [h0]
    exact ih

theorem digitsToNat_zeroPad (w : Nat) (l : List Char) :
    digitsToNat (zeroPad w l) = digitsToNat l :=
  digitsToNat_replicate_zero _ _

theorem isDigits_zeroPad (w : Nat) (l : List Char) (h : isDigits l = true) :
    isDigits (zeroPad w l) = true := by
  unfold isDigits at h ⊢
  unfold zeroPad
  rw [Bool.and_eq_true, decide_eq_true_eq] at h ⊢
  obtain ⟨h1, h2⟩ := h
  refine ⟨by simp [h1], ?_⟩
  rw [List.all_append, Bool.and_eq_true]
  refine ⟨?_, h2⟩
  apply List.all_eq_true.2
  intro c hc
  rw [List.eq_of_mem_replicate hc]
  decide

theorem candidateId_data (n : Nat) :
    (candidateId n).data
      = 's' :: 't' :: 'u' :: zeroPad STUDENT_ID_PADDING (natDigits n) := rfl

theorem prefixNumber?_candidateId (n : Nat) :
    prefixNumber? (candidateId n) = some n := by
  unfold prefixNumber? strStartsWith
  rw [candidateId_data]
  have hpre : (STUDENT_ID_PREFIX.data.isPrefixOf
      ('s' :: 't' :: 'u' :: zeroPad STUDENT_ID_PADDING (natDigits n))) = true := by
    show (['s', 't', 'u'].isPrefixOf
      ('s' :: 't' :: 'u' :: zeroPad STUDENT_ID_PADDING (natDigits n))) = true
    simp [List.isPrefixOf]
  rw [if_pos hpre]
  have hdrop : ('s' :: 't' :: 'u' :: zeroPad STUDENT_ID_PADDING (natDigits n)).drop 3
      = zeroPad STUDENT_ID_PADDING (natDigits n) := rfl
  rw [hdrop, if_pos (isDigits_zeroPad _ _ (isDigits_natDigits n)),
    digitsToNat_zeroPad, digitsToNat_natDigits]

theorem foldl_step_le (ids : List String) (a : Nat) :
    a ≤ ids.foldl (fun m sid => match prefixNumber? sid with
      | some k => max m k
      | none => m) a := by
  induction ids generalizing a with
  | nil => simp
  | cons x t ih =>
    simp only [List.foldl_cons]
    refine le_trans ?_ (ih _)
    cases h : prefixNumber? x <;> simp [h]

theorem le_foldl_step (ids : List String) (sid : String) (k : Nat)
    (hmem : sid ∈ ids) (hp : prefixNumber? sid = some k) (a : Nat) :
    k ≤ ids.foldl (fun m sid => match prefixNumber? sid with
      | some k => max m k
      | none => m) a := by
  induction ids generalizing a with
  | nil => cases hmem
  | cons x t ih =>
    rcases List.mem_cons.1 hmem with rfl | hmem2
    · simp only [List.foldl_cons, hp]
      exact le_trans (le_max_right _ _) (foldl_step_le t _)
    · simp only [List.foldl_cons]
      exact ih hmem2 _

theorem le_maxStudentNumber (ids : List String) (sid : String) (k : Nat)
    (hmem : sid ∈ ids) (hp : prefixNumber? sid = some k) :
    k ≤ maxStudentNumber ids :=
  le_foldl_step ids sid k hmem hp 0

theorem foldl_step_max (ids : List String) (a : Nat) :
    ids.foldl (fun m sid => match prefixNumber? sid with
      | some k => max m k
      | none => m) a
      = max a (ids.foldl (fun m sid => match prefixNumber? sid with
          | some k => max m k
          | none => m) 0) := by
  induction ids generalizing a with
  | nil => simp
  | cons x t ih =>
    simp only [List.foldl_cons]
    rw [ih, ih (match prefixNumber? x with
      | some k => max 0 k
      | none => 0)]
    cases h : prefixNumber? x <;> simp only [h] <;> simp [Nat.zero_max, max_assoc]

theorem maxStudentNumber_cons (sid : String) (ids : List String) (k : Nat)
    (hp : prefixNumber? sid = some k) :
    maxStudentNumber (sid :: ids) = max k (maxStudentNumber ids) := by
  unfold maxStudentNumber
  simp only [List.foldl_cons, hp]
  rw [foldl_step_max]
  simp [Nat.zero_max]

theorem candidateId_not_mem (ids : List String) :
    candidateId (maxStudentNumber ids + 1) ∉ ids := by
  intro hmem
  have := le_maxStudentNumber ids _ _ hmem
    (prefixNumber?_candidateId (maxStudentNumber ids + 1))
  omega

theorem generate_student_id_eq (ids : List String) :
    generate_student_id ids = candidateId (maxStudentNumber ids + 1) := by
  have hstep : generate_student_id ids
      = if ids.contains (candidateId (maxStudentNumber ids + 1))
        then probeCandidate ids ids.length (maxStudentNumber ids + 1 + 1)
        else candidateId (maxStudentNumber ids + 1) := rfl
  rw [hstep, if_neg]
  intro hc
  exact candidateId_not_mem ids (by simpa using hc)

theorem prefixNumber?_generate (ids : List String) :
    prefixNumber? (generate_student_id ids) = some (maxStudentNumber ids + 1) := by
  rw [generate_student_id_eq]
  exact prefixNumber?_candidateId _

theorem generate_not_mem (ids : List String) : generate_student_id ids ∉ ids := by
  rw [generate_student_id_eq]
  exact candidateId_not_mem ids

theorem maxStudentNumber_gen_cons (ids : List String) :
    maxStudentNumber (generate_student_id ids :: ids) = maxStudentNumber ids + 1 := by
  rw [maxStudentNumber_cons _ _ _ (prefixNumber?_generate ids)]
  omega

/-- C8: student-id generation triggers exactly when the saved user's
(post-derivation) role is Student and no id is assigned; the generator scans
the existing ids with the fixed prefix, takes the maximum numeric suffix plus
one, zero-pads it, and the collision probe exits at once (the first candidate
can never collide); three ids generated in sequence have strictly increasing
numeric suffixes max+1, max+2, max+3 and collide neither with each other nor
with existing ids; and after deleting an id, a fresh id never reuses the
deleted number while a higher-numbered id still exists. -/
theorem C8_student_id_generation (ids : List String) (u : UserRec) :
    ((userSave ids u).student_id
      = if (userSave ids u).role = Role.student ∧ blankId u.student_id = true
          then some (generate_student_id ids) else u.student_id) ∧
    generate_student_id ids = candidateId (maxStudentNumber ids + 1) ∧
    prefixNumber? (generate_student_id ids) = some (maxStudentNumber ids + 1) ∧
    generate_student_id ids ∉ ids ∧
    (∀ sid ∈ ids, ∀ k : Nat, prefixNumber? sid = some k →
      k < maxStudentNumber ids + 1) ∧
    prefixNumber? (generate_student_id (generate_student_id ids :: ids))
      = some (maxStudentNumber ids + 2) ∧
    prefixNumber? (generate_student_id (generate_student_id
        (generate_student_id ids :: ids) :: generate_student_id ids :: ids))
      = some (maxStudentNumber ids + 3) ∧
    generate_student_id (generate_student_id ids :: ids)
      ∉ generate_student_id ids :: ids ∧
    generate_student_id (generate_student_id (generate_student_id ids :: ids)
        :: generate_student_id ids :: ids)
      ∉ generate_student_id (generate_student_id ids :: ids)
        :: generate_student_id ids :: ids ∧
    (∀ sid ∈ ids, ∀ k d : Nat, prefixNumber? sid = some k → d < k →
      prefixNumber? (generate_student_id ids) ≠ some d) := by
  have hmax1 := maxStudentNumber_gen_cons ids
  have hmax2 := maxStudentNumber_gen_cons (generate_student_id ids :: ids)
  refine ⟨?_, generate_student_id_eq ids, prefixNumber?_generate ids,
    generate_not_mem ids, ?_, ?_, ?_, generate_not_mem _, generate_not_mem _, ?_⟩
  · unfold userSave
    by_cases he : u.email = "" <;> by_cases hsu : (u.is_superuser || u.is_staff) = true <;>
      simp only [he, hsu, ne_eq, not_true_eq_false, not_false_eq_true, if_true,
        if_false, ite_true, ite_false, Bool.false_eq_true] <;>
      split_ifs <;> simp_all
  · intro sid hmem k hp
    have := le_maxStudentNumber ids sid k hmem hp
    omega
  · rw [prefixNumber?_generate, hmax1]
  · rw [prefixNumber?_generate, hmax2, hmax1]
  · intro sid hmem k d hp hdk heq
    have h1 := le_maxStudentNumber ids sid k hmem hp
    rw [prefixNumber?_generate ids] at heq
    have : maxStudentNumber ids + 1 = d := by
      have := Option.some_inj.1 heq
      omega
    omega

theorem C8_witness :
    ((userSave ["stu0001", "stu0003"]
        ⟨"s@x.io", "", false, false, Role.student, none⟩).student_id
      = if (userSave ["stu0001", "stu0003"]
            ⟨"s@x.io", "", false, false, Role.student, none⟩).role = Role.student ∧
          blankId (none : Option String) = true
          then some (generate_student_id ["stu0001", "stu0003"]) else none) ∧
    generate_student_id ["stu0001", "stu0003"]
      = candidateId (maxStudentNumber ["stu0001", "stu0003"] + 1) ∧
    prefixNumber? (generate_student_id ["stu0001", "stu0003"])
      = some (maxStudentNumber ["stu0001", "stu0003"] + 1) ∧
    generate_student_id ["stu0001", "stu0003"] ∉ ["stu0001", "stu0003"] ∧
    (∀ sid ∈ ["stu0001", "stu0003"], ∀ k : Nat, prefixNumber? sid = some k →
      k < maxStudentNumber ["stu0001", "stu0003"] + 1) ∧
    prefixNumber? (generate_student_id
        (generate_student_id ["stu0001", "stu0003"] :: ["stu0001", "stu0003"]))
      = some (maxStudentNumber ["stu0001", "stu0003"] + 2) ∧
    prefixNumber? (generate_student_id (generate_student_id
        (generate_student_id ["stu0001", "stu0003"] :: ["stu0001", "stu0003"])
        :: generate_student_id ["stu0001", "stu0003"] :: ["stu0001", "stu0003"]))
      = some (maxStudentNumber ["stu0001", "stu0003"] + 3) ∧
    generate_student_id
        (generate_student_id ["stu0001", "stu0003"] :: ["stu0001", "stu0003"])
      ∉ generate_student_id ["stu0001", "stu0003"] :: ["stu0001", "stu0003"] ∧
    generate_student_id (generate_student_id
        (generate_student_id ["stu0001", "stu0003"] :: ["stu0001", "stu0003"])
        :: generate_student_id ["stu0001", "stu0003"] :: ["stu0001", "stu0003"])
      ∉ generate_student_id
          (generate_student_id ["stu0001", "stu0003"] :: ["stu0001", "stu0003"])
        :: generate_student_id ["stu0001", "stu0003"] :: ["stu0001", "stu0003"] ∧
    (∀ sid ∈ ["stu0001", "stu0003"], ∀ k d : Nat, prefixNumber? sid = some k →
      d < k → prefixNumber? (generate_student_id ["stu0001", "stu0003"]) ≠ some d) :=
  C8_student_id_generation ["stu0001", "stu0003"]
    ⟨"s@x.io", "", false, false, Role.student, none⟩

end LMS
